import Mathlib

/-!
Shallow embedding of `ethash.go` (package ethash): epoch computation,
cache/DAG lifecycle management, mining search loop and verification,
together with theorems checking the specification's claims against it.

External collaborators (the C hash oracle `ethash_mkcache` /
`ethash_compute_full_data` / `ethash_full` / `ethash_light`, the chain
manager, the sizing parameters computed by `ethash_params_init`, wall-clock
time and the PRNG) are modelled as explicit parameters; the Go control flow
around them is embedded faithfully, including oracle-call counting where a
claim is about the number of oracle invocations.
-/

namespace Ethash

/-- `epochLength` constant (ethash.go line 66). -/
def epochLength : Nat := 30000

/-- Embedding of `GetSeedBlockNum` (ethash.go lines 68-74): returns 0 unless
`blockNum > epochLength`, in which case `((blockNum-1)/epochLength)*epochLength`.
The uint64 subtraction cannot underflow on the taken branch, and the quotient
times `epochLength` is at most `blockNum - 1`, so plain `Nat` arithmetic agrees
with the Go uint64 arithmetic on every uint64 input. -/
def GetSeedBlockNum (blockNum : Nat) : Nat :=
  if blockNum > epochLength then ((blockNum - 1) / epochLength) * epochLength
  else 0

/-- `tt256` (ethash.go line 30): `2^256` (note: not `2^256 - 1`). -/
def tt256 : Nat := 2 ^ 256

/-- The target computed in `Search` (line 235) and in `verify` (line 284):
`new(big.Int).Div(tt256, difficulty)`, i.e. floor division. -/
def targetOf (difficulty : Nat) : Nat := tt256 / difficulty

/-- `ethutil.Bytes2Big` on a byte slice: big-endian base-256 interpretation
(Go `big.Int.SetBytes`). -/
def bytes2Big (bs : List Nat) : Nat := bs.foldl (fun a b => a * 256 + b) 0

/-- The acceptance test of the search loop (line 253) and of `verify`
(line 303): `result.Cmp(target) <= 0`, i.e. the big-endian digest value is at
most the target. -/
def acceptsDigest (resultBytes : List Nat) (difficulty : Nat) : Bool :=
  bytes2Big resultBytes ≤ targetOf difficulty

/-- State of the cache manager, `pow.paramsAndCache` (ethash.go lines 39-43,
50) together with a counter of `ethash_mkcache` oracle invocations and an
identity for the live cache object, so that "same object, no oracle call" is
expressible.  `makeParamsAndCache` (lines 76-93) allocates a fresh
`ParamsAndCache` with `SeedBlockNum := GetSeedBlockNum blockNum` and calls
`ethash_mkcache` exactly once; the fresh object is modelled by an identity
never equal to that of any earlier object (one more than the number of builds
so far). -/
structure CacheState where
  seedBlockNum : Nat
  cacheId : Nat
  mkcacheCalls : Nat
  deriving DecidableEq, Repr

/-- Embedding of `updateCache` (ethash.go lines 95-102): under `cacheMutex`,
compare the held cache's `SeedBlockNum` to `GetSeedBlockNum` of the chain's
current block number; on mismatch replace the cache via `makeParamsAndCache`
(one `ethash_mkcache` call), otherwise do nothing. -/
def updateCache (currentBlockNum : Nat) (st : CacheState) : CacheState :=
  let seedNum := GetSeedBlockNum currentBlockNum
  if st.seedBlockNum ≠ seedNum then
    { seedBlockNum := GetSeedBlockNum currentBlockNum,
      cacheId := st.mkcacheCalls + 1,
      mkcacheCalls := st.mkcacheCalls + 1 }
  else st

/-- Embedding of `GetSeedHash` (ethash.go lines 198-201): the chain
collaborator's seed hash at block number `GetSeedBlockNum blockNum`.
`seedHashOf` stands for `chainManager.GetBlockByNumber(·).SeedHash()`. -/
def GetSeedHash (seedHashOf : Nat → List Nat) (blockNum : Nat) : List Nat :=
  seedHashOf (GetSeedBlockNum blockNum)

/-- Embedding of `Verify` (ethash.go lines 269-276) down to the acceptance
decision of `verify` (lines 278-304), instrumented with the number of
`ethash_light` oracle calls made.  `Verify` first compares the block's own
seed hash with `GetSeedHash` of the block's number; on mismatch it returns
`false` having made no oracle call.  Otherwise `verify` runs, which always
performs exactly one `ethash_light` call (line 300) producing the 32-byte
digest `lightResultBytes`, and accepts iff its big-endian value is at most
`tt256 / difficulty`. -/
def Verify (seedHashOf : Nat → List Nat) (blockSeedHash : List Nat)
    (blockNum : Nat) (lightResultBytes : List Nat) (difficulty : Nat) :
    Bool × Nat :=
  if blockSeedHash = GetSeedHash seedHashOf blockNum then
    (acceptsDigest lightResultBytes difficulty, 1)
  else
    (false, 0)

/-- A live DAG object (ethash.go lines 34-37): recorded seed block number and
the byte length of its buffer (the `unsafe.Pointer` contents are opaque; only
the size and provenance matter to the claims). -/
structure DAG where
  SeedBlockNum : Nat
  bufLen : Nat
  deriving DecidableEq, Repr

/-- Embedding of `makeDAG` (ethash.go lines 104-111): allocates
`p.params.full_size` bytes — the dataset size of the CACHE's epoch, given by
the sizing oracle `dsize` (the `ethash_params_init` computation, external C
code) — records `SeedBlockNum := p.SeedBlockNum`, and calls
`ethash_compute_full_data` over the cache `p`. -/
def makeDAG (dsize : Nat → Nat) (cacheSeedBlockNum : Nat) : DAG :=
  { SeedBlockNum := cacheSeedBlockNum, bufLen := dsize cacheSeedBlockNum }

/-- What `updateDAG` did on one call, beyond the resulting DAG state:
- `noop`: held DAG already had the target epoch, nothing happened;
- `regenerated c w`: `makeDAG` ran, i.e. `ethash_compute_full_data` was
  invoked over the held cache whose epoch is `c`, and `writeDagToDisk`
  overwrote the file with header epoch `w`;
- `adoptedFromFile`: the file's payload was adopted with no oracle call and
  no write;
- `panicked`: the Go code panics on the adoption path (slice bounds at
  `data = data[8:]` when the file is shorter than 8 bytes, or index bounds
  at `&data[0]` when the file is exactly 8 bytes, both reached only when
  the padded header is at least the target), with `pow.dag` already set to
  nil at line 140. -/
inductive DagEvent
  | noop
  | regenerated (cacheEpochUsed : Nat) (fileHeaderWritten : Nat)
  | adoptedFromFile
  | panicked
  deriving DecidableEq, Repr

/-- The slice of `Ethash` state that `updateDAG` reads and writes: the held
cache's epoch and the held DAG (nil at startup, ethash.go line 183). -/
structure DagState where
  cacheSeedBlockNum : Nat
  dag : Option DAG
  deriving DecidableEq, Repr

structure UpdateDagResult where
  dag : Option DAG
  event : DagEvent
  deriving DecidableEq, Repr

/-- `binary.BigEndian.Uint64(data[0:8])` applied to the slice returned by
`ioutil.ReadAll`: that slice has capacity at least 512 (`bytes.MinRead`)
over a zeroed backing array, so `data[0:8]` never panics — for a file
shorter than 8 bytes it yields the file's bytes zero-padded on the right to
8, and for a longer file its first 8 bytes. -/
def readUint64BE (data : List Nat) : Nat :=
  bytes2Big (data.take 8 ++ List.replicate (8 - data.length) 0)

/-- Embedding of `updateDAG` (ethash.go lines 129-176).  Under both mutexes:
compute `seedNum` from the chain's current block number; if the held DAG is
nil or its `SeedBlockNum` differs, set `pow.dag` to nil and open the file
(`file` is `none` when `os.Open` fails, `some data` its full contents
otherwise):
- missing file: `pow.dag = makeDAG(pow.paramsAndCache)` (the held cache, NOT
  refreshed first), then `writeDagToDisk(pow.dag, seedNum)`;
- header `num := BigEndian.Uint64(data[0:8])` — never a panic, zero-padded
  for short files since `ReadAll`'s slice has capacity at least 512 over a
  zeroed backing array — below `seedNum`: regenerate and rewrite as in the
  missing case;
- header at least `seedNum` and at most 8 bytes of data: panic, at
  `data = data[8:]` when fewer than 8 bytes (low bound above the length) or
  at `&data[0]` when exactly 8 (index into the empty payload);
- otherwise: adopt `data[8:]` as the DAG buffer, recording
  `SeedBlockNum := pow.paramsAndCache.SeedBlockNum`. -/
def updateDAG (dsize : Nat → Nat) (currentBlockNum : Nat) (st : DagState)
    (file : Option (List Nat)) : UpdateDagResult :=
  let seedNum := GetSeedBlockNum currentBlockNum
  let stale := match st.dag with
    | none => true
    | some d => d.SeedBlockNum ≠ seedNum
  if stale then
    match file with
    | none =>
        { dag := some (makeDAG dsize st.cacheSeedBlockNum),
          event := .regenerated st.cacheSeedBlockNum seedNum }
    | some data =>
        if readUint64BE data < seedNum then
          { dag := some (makeDAG dsize st.cacheSeedBlockNum),
            event := .regenerated st.cacheSeedBlockNum seedNum }
        else if data.length ≤ 8 then
          { dag := none, event := .panicked }
        else
          { dag := some { SeedBlockNum := st.cacheSeedBlockNum,
                          bufLen := data.length - 8 },
            event := .adoptedFromFile }
  else
    { dag := st.dag, event := .noop }

/-- The two mutexes of `Ethash` (ethash.go lines 53-54). -/
inductive Lock
  | cacheLock
  | dagLock
  deriving DecidableEq, Repr

inductive LockEvent
  | acq (l : Lock)
  | rel (l : Lock)
  deriving DecidableEq, Repr

/-- Mutex acquire/release sequence of `updateDAG` (ethash.go lines 130-131,
174-175): cacheMutex, then dagMutex; released in reverse. -/
def updateDAG_lockTrace : List LockEvent :=
  [.acq .cacheLock, .acq .dagLock, .rel .dagLock, .rel .cacheLock]

/-- Mutex acquire/release sequence of `Stop` (ethash.go lines 204-213). -/
def stop_lockTrace : List LockEvent :=
  [.acq .cacheLock, .acq .dagLock, .rel .dagLock, .rel .cacheLock]

/-- Mutex acquire/release sequence of `Search` (ethash.go lines 216-267):
first the `updateDAG` call (line 217) takes and releases both locks in
cache-then-dag order; then lines 220-221 lock `dagMutex` FIRST and
`cacheMutex` second, held until the deferred unlocks at return — the defers
at lines 222-223 run LIFO, releasing `dagMutex` before `cacheMutex`. -/
def search_lockTrace : List LockEvent :=
  updateDAG_lockTrace ++
    [.acq .dagLock, .acq .cacheLock, .rel .dagLock, .rel .cacheLock]

/-- Locks held after processing a lock event. -/
def applyLockEvent (held : List Lock) : LockEvent → List Lock
  | .acq l => l :: held
  | .rel l => held.erase l

/-- Locks held just before step `i` of a trace. -/
def heldAt (tr : List LockEvent) (i : Nat) : List Lock :=
  (tr.take i).foldl applyLockEvent []

/-- `true` iff at some step of the trace lock `b` is acquired (i.e. waited
for, then taken) while lock `a` is already held. -/
def acquiresWhileHolding (tr : List LockEvent) (a b : Lock) : Bool :=
  (List.range tr.length).any fun i =>
    tr.getD i (.rel a) = .acq b ∧ a ∈ heldAt tr i

/-- Per-iteration state of the `Search` loop (ethash.go lines 237-266):
current nonce (uint64), the published `pow.HashRate`, and a counter of
`ethash_full` oracle calls made so far. -/
structure SearchState where
  nonce : Nat
  hashRate : Int
  fullHashCalls : Nat
  deriving DecidableEq, Repr

/-- Outcome of one iteration of the `Search` loop: return with the Go triple
`(uint64, []byte, []byte)` — `none` standing for a nil slice — or continue
with the next state. -/
inductive SearchStep
  | ret (nonce : Nat) (mixDigest seedHash : Option (List Nat))
      (st : SearchState)
  | next (st : SearchState)
  deriving DecidableEq, Repr

/-- Embedding of one iteration of the `Search` loop (ethash.go lines
237-266).  The `select` polls `stop` without blocking: when the stop channel
is ready (`stopSet`), Go's `select` takes that case (the `default` case runs
only when no other case is ready), so the loop sets `pow.HashRate = 0` and
returns `0, nil, nil` without calling `ethash_full`.  Otherwise it publishes
a wall-clock-derived hash rate (`newRate`, opaque here), makes one
`ethash_full` call at the current nonce — `oracle n = (result, mixDigest)`,
two 32-byte outputs — and returns `(nonce, mixDigest, GetSeedHash ...)` when
the result digest is at most the target, else increments the nonce (uint64
wrap-around) and continues. -/
def searchStep (oracle : Nat → List Nat × List Nat)
    (seedHash : List Nat) (difficulty : Nat) (newRate : Int)
    (stopSet : Bool) (st : SearchState) : SearchStep :=
  if stopSet then
    .ret 0 none none { st with hashRate := 0 }
  else
    let st := { st with hashRate := newRate,
                        fullHashCalls := st.fullHashCalls + 1 }
    let r := oracle st.nonce
    if acceptsDigest r.1 difficulty then
      .ret st.nonce (some r.2) (some seedHash) st
    else
      .next { st with nonce := (st.nonce + 1) % 2 ^ 64 }

/-- The buffer slice of the cache built by `makeParamsAndCache` (ethash.go
lines 76-93): the recorded epoch and the byte length of the malloc'd cache
buffer. -/
structure CacheBuf where
  SeedBlockNum : Nat
  bufLen : Nat
  deriving DecidableEq, Repr

/-- Sizing of `makeParamsAndCache` (ethash.go lines 76-93):
`ethash_params_init(params, uint32(seedBlockNum))` (line 83) initializes the
sizing params for the recorded epoch truncated to 32 bits, and the cache
buffer is allocated with `params.cache_size` (line 84).  `csize` stands for
the `cache_size` field computed by `ethash_params_init` (external C code). -/
def makeParamsAndCacheBuf (csize : Nat → Nat) (blockNum : Nat) : CacheBuf :=
  { SeedBlockNum := GetSeedBlockNum blockNum,
    bufLen := csize (GetSeedBlockNum blockNum % 2 ^ 32) }

/-- A sample sizing oracle standing for the `full_size` field computed by
`ethash_params_init` (external C code): injective on epoch ids (multiples of
30000), used to evaluate the embedding at concrete states. -/
def dsizeSample : Nat → Nat := fun e => e / 3000

/-- C1: `GetSeedBlockNum` maps a height `h` to `0` when `h ≤ 30000` and to
`((h-1)/30000)*30000` otherwise, with the stated boundary values at
0, 30000, 30001, 60000 and 60001. -/
theorem getSeedBlockNum_epoch_formula :
    (∀ h : Nat, GetSeedBlockNum h =
      if h ≤ 30000 then 0 else ((h - 1) / 30000) * 30000) ∧
    GetSeedBlockNum 0 = 0 ∧ GetSeedBlockNum 30000 = 0 ∧
    GetSeedBlockNum 30001 = 30000 ∧ GetSeedBlockNum 60000 = 30000 ∧
    GetSeedBlockNum 60001 = 60000 := by
  refine ⟨fun h => ?_, by decide, by decide, by decide, by decide, by decide⟩
  by_cases hle : h ≤ 30000
  · simp [GetSeedBlockNum, epochLength, hle, Nat.not_lt.mpr hle]
  · simp [GetSeedBlockNum, epochLength, hle, Nat.lt_of_not_le hle]

/-- C2: the claim says dataset regeneration always uses a cache whose epoch
matches the target epoch.  The code violates it: for EVERY starting cache
epoch, `updateDAG` invokes `ethash_compute_full_data` over the held cache
without refreshing it (it never calls `updateCache`); at the failing input —
cache built for epoch 0, no DAG, current height 30001 (target epoch 30000),
no stored file — the dataset is constructed from the epoch-0 cache. -/
theorem updateDAG_builds_from_unrefreshed_cache :
    (∀ dsize : Nat → Nat, ∀ cacheEpoch blockNum : Nat,
      (updateDAG dsize blockNum ⟨cacheEpoch, none⟩ none).event =
        .regenerated cacheEpoch (GetSeedBlockNum blockNum)) ∧
    (updateDAG dsizeSample 30001 ⟨0, none⟩ none).event =
      .regenerated 0 (GetSeedBlockNum 30001) ∧
    (0 : Nat) ≠ GetSeedBlockNum 30001 := by
  refine ⟨fun dsize cacheEpoch blockNum => rfl, rfl, by decide⟩

/-- C3: the claim says every path acquiring both mutexes takes cacheLock
first, and no execution holds the dataset lock while waiting for the cache
lock.  `updateDAG` and `Stop` do follow cache-then-dag order, but `Search`
(lines 220-221) acquires dagMutex FIRST and then waits for cacheMutex while
holding dagMutex, refuting the claim. -/
theorem search_locks_dag_before_cache :
    acquiresWhileHolding search_lockTrace .dagLock .cacheLock = true ∧
    acquiresWhileHolding updateDAG_lockTrace .dagLock .cacheLock = false ∧
    acquiresWhileHolding updateDAG_lockTrace .cacheLock .dagLock = true ∧
    acquiresWhileHolding stop_lockTrace .dagLock .cacheLock = false ∧
    acquiresWhileHolding stop_lockTrace .cacheLock .dagLock = true := by
  decide

/-- C4 counterexample: a stored file shorter than the 8-byte header is NOT
always treated as "no cached dataset": the single-byte file `[1]` reads as
the zero-padded header `2^56`, which is at least the target epoch 30000, so
the code takes the adoption path and panics at `data = data[8:]` instead of
regenerating — contradicting the claimed crash-free regeneration for every
short file. -/
theorem updateDAG_short_file_can_panic :
    (updateDAG dsizeSample 30001 ⟨30000, none⟩ (some [1])).event =
      .panicked ∧
    (updateDAG dsizeSample 30001 ⟨30000, none⟩ (some [1])).dag = none ∧
    readUint64BE [1] = 72057594037927936 ∧
    ¬ readUint64BE [1] < GetSeedBlockNum 30001 ∧
    DagEvent.panicked ≠ .regenerated 30000 30000 := by
  refine ⟨rfl, rfl, by decide, by decide, by decide⟩

/-- C4 amended: with no DAG held — a missing file triggers full regeneration
plus overwrite; a present file's first 8 bytes are read as an epoch header,
zero-padded for files shorter than 8 bytes (`ReadAll` returns a buffer of
capacity at least 512); whenever that header value is below the target
epoch, the file — short or not — triggers full regeneration plus overwrite,
never partial reuse and with no crash; when the header value is at least
the target, a file of at most 8 bytes crashes (slice panic at `data[8:]`
for shorter files, index panic at `&data[0]` for exactly 8 bytes) while a
longer file is adopted as the in-memory dataset without recomputation. -/
theorem updateDAG_file_handling (dsize : Nat → Nat)
    (cacheEpoch blockNum : Nat) (file : Option (List Nat)) :
    (file = none →
      (updateDAG dsize blockNum ⟨cacheEpoch, none⟩ file).event =
        .regenerated cacheEpoch (GetSeedBlockNum blockNum)) ∧
    (∀ data, file = some data →
      readUint64BE data < GetSeedBlockNum blockNum →
      (updateDAG dsize blockNum ⟨cacheEpoch, none⟩ file).event =
        .regenerated cacheEpoch (GetSeedBlockNum blockNum)) ∧
    (∀ data, file = some data →
      GetSeedBlockNum blockNum ≤ readUint64BE data → data.length ≤ 8 →
      (updateDAG dsize blockNum ⟨cacheEpoch, none⟩ file).event =
        .panicked) ∧
    (∀ data, file = some data →
      GetSeedBlockNum blockNum ≤ readUint64BE data → 8 < data.length →
      (updateDAG dsize blockNum ⟨cacheEpoch, none⟩ file).event =
        .adoptedFromFile ∧
      (updateDAG dsize blockNum ⟨cacheEpoch, none⟩ file).dag =
        some ⟨cacheEpoch, data.length - 8⟩) := by
  refine ⟨fun hf => ?_, fun data hf hold => ?_,
    fun data hf hfresh hshort => ?_, fun data hf hfresh hlen => ?_⟩
  · subst hf; rfl
  · subst hf
    simp [updateDAG, hold]
  · subst hf
    simp [updateDAG, Nat.not_lt.mpr hfresh, hshort]
  · subst hf
    constructor <;>
      simp [updateDAG, Nat.not_lt.mpr hfresh, Nat.not_le.mpr hlen]

theorem updateDAG_file_handling_witness :
    readUint64BE [0, 0, 0] < GetSeedBlockNum 30001 ∧
    (updateDAG dsizeSample 30001 ⟨0, none⟩ (some [0, 0, 0])).event =
      .regenerated 0 (GetSeedBlockNum 30001) :=
  ⟨by decide,
    (updateDAG_file_handling dsizeSample 0 30001 (some [0, 0, 0])).2.1
      [0, 0, 0] rfl (by decide)⟩

/-- C5 counterexample: `tt256` is `2^256`, not `2^256 - 1`, and the
difference is observable: at difficulty 2 the code's target is `2^255`,
while `floor((2^256 - 1) / 2) = 2^255 - 1`, so the digest whose big-endian
bytes are `128` followed by 31 zero bytes (value `2^255`) is accepted by the
code but would be rejected under the claimed target. -/
theorem target_divides_two_pow_256 :
    targetOf 2 ≠ (2 ^ 256 - 1) / 2 ∧
    acceptsDigest (128 :: List.replicate 31 0) 2 = true ∧
    (2 ^ 256 - 1) / 2 < bytes2Big (128 :: List.replicate 31 0) := by
  refine ⟨by decide, by decide, by decide⟩

/-- C5 amended: in both the search loop and the verifier the target is
`floor(2^256 / difficulty)` (the code's `tt256` constant is `2^256`, one
more than the largest 256-bit integer), and a candidate digest is accepted
exactly when its big-endian value is at most that target. -/
theorem search_verify_target (d : Nat) (hd : 0 < d) (bs : List Nat) :
    targetOf d = 2 ^ 256 / d ∧
    (acceptsDigest bs d = true ↔ bytes2Big bs ≤ 2 ^ 256 / d) ∧
    tt256 = 2 ^ 256 ∧ targetOf d ≤ 2 ^ 256 := by
  refine ⟨rfl, by simp [acceptsDigest, targetOf, tt256], rfl, ?_⟩
  exact Nat.div_le_self _ _ |>.trans (le_refl _)

theorem search_verify_target_witness :
    0 < 7 ∧ (targetOf 7 = 2 ^ 256 / 7 ∧
      (acceptsDigest [1] 7 = true ↔ bytes2Big [1] ≤ 2 ^ 256 / 7) ∧
      tt256 = 2 ^ 256 ∧ targetOf 7 ≤ 2 ^ 256) :=
  ⟨by decide, search_verify_target 7 (by decide) [1]⟩

/-- C6 counterexample: with a CURRENT cache (epoch 30000, height 30001) and
a stored file whose header epoch is 60000 with a payload of
`dsizeSample 60000 = 20` bytes (well-formed for epoch 60000), `updateDAG`
adopts the payload but records it under epoch 30000, whose dataset size is
`dsizeSample 30000 = 10 ≠ 20`: the live dataset's size does not match the
SizingParams of its own recorded epoch id. -/
theorem adopted_dag_size_mismatch :
    (updateDAG dsizeSample 30001 ⟨30000, none⟩
        (some ([0, 0, 0, 0, 0, 0, 234, 96] ++ List.replicate 20 0))).dag =
      some ⟨30000, 20⟩ ∧
    readUint64BE ([0, 0, 0, 0, 0, 0, 234, 96] ++ List.replicate 20 0) =
      60000 ∧
    dsizeSample 60000 = 20 ∧
    dsizeSample 30000 ≠ 20 := by
  refine ⟨by decide, by decide, by decide, by decide⟩

/-- C6 amended: the live Cache buffer always matches the SizingParams of
its own recorded epoch id (its buffer is allocated from params initialized
for that very epoch; the uint32 cast at line 83 is lossless for every epoch
id below `2^32`, i.e. every realistic height), and a freshly regenerated
dataset likewise matches its own recorded epoch's sizing; but a dataset
adopted from the stored file is recorded under the CACHE's current epoch id
while its buffer is the file's payload; whenever the file is well-formed
for a header epoch whose dataset size differs from the cache epoch's, the
adopted live dataset violates the size invariant for its recorded epoch. -/
theorem adopted_dag_recorded_under_cache_epoch (dsize csize : Nat → Nat)
    (cacheEpoch blockNum cacheBlockNum : Nat) (data : List Nat)
    (hb : GetSeedBlockNum cacheBlockNum < 2 ^ 32)
    (hlen : 8 < data.length)
    (hfresh : GetSeedBlockNum blockNum ≤ readUint64BE data)
    (hwf : data.length = 8 + dsize (readUint64BE data))
    (hne : dsize (readUint64BE data) ≠ dsize cacheEpoch) :
    (makeParamsAndCacheBuf csize cacheBlockNum).bufLen =
      csize (makeParamsAndCacheBuf csize cacheBlockNum).SeedBlockNum ∧
    (∀ e, (makeDAG dsize e).bufLen = dsize (makeDAG dsize e).SeedBlockNum) ∧
    (updateDAG dsize blockNum ⟨cacheEpoch, none⟩ (some data)).dag =
      some ⟨cacheEpoch, dsize (readUint64BE data)⟩ ∧
    ∀ d, (updateDAG dsize blockNum ⟨cacheEpoch, none⟩ (some data)).dag =
        some d → d.bufLen ≠ dsize d.SeedBlockNum := by
  have hadopt :
      (updateDAG dsize blockNum ⟨cacheEpoch, none⟩ (some data)).dag =
        some ⟨cacheEpoch, data.length - 8⟩ := by
    simp [updateDAG, Nat.not_lt.mpr hfresh, Nat.not_le.mpr hlen]
  have hsub : data.length - 8 = dsize (readUint64BE data) := by omega
  refine ⟨?_, fun e => rfl, by rw [hadopt, hsub], fun d hd => ?_⟩
  · simp only [makeParamsAndCacheBuf]
    rw [Nat.mod_eq_of_lt hb]
  · rw [hadopt] at hd
    cases hd
    simpa [hsub] using hne

theorem adopted_dag_recorded_under_cache_epoch_witness :
    GetSeedBlockNum 30001 < 2 ^ 32 ∧
    8 < ([0, 0, 0, 0, 0, 0, 234, 96] ++ List.replicate 20 0).length ∧
    GetSeedBlockNum 30001 ≤
      readUint64BE ([0, 0, 0, 0, 0, 0, 234, 96] ++ List.replicate 20 0) ∧
    ([0, 0, 0, 0, 0, 0, 234, 96] ++ List.replicate 20 0).length =
      8 + dsizeSample
        (readUint64BE ([0, 0, 0, 0, 0, 0, 234, 96] ++ List.replicate 20 0)) ∧
    (updateDAG dsizeSample 30001 ⟨30000, none⟩
        (some ([0, 0, 0, 0, 0, 0, 234, 96] ++ List.replicate 20 0))).dag =
      some ⟨30000, dsizeSample
        (readUint64BE ([0, 0, 0, 0, 0, 0, 234, 96] ++ List.replicate 20 0))⟩ :=
  ⟨by decide, by decide, by decide, by decide,
    (adopted_dag_recorded_under_cache_epoch dsizeSample dsizeSample
        30000 30001 30001 ([0, 0, 0, 0, 0, 0, 234, 96] ++ List.replicate 20 0)
        (by decide) (by decide) (by decide) (by decide) (by decide)).2.2.1⟩

/-- C7: whenever the block's seed hash differs from the canonical seed hash
of its height's epoch, `Verify` returns `false` with ZERO `ethash_light`
oracle calls — the light-hash path is never reached. -/
theorem verify_short_circuits (seedHashOf : Nat → List Nat)
    (blockSeedHash : List Nat) (blockNum : Nat)
    (lightResultBytes : List Nat) (difficulty : Nat)
    (hne : blockSeedHash ≠ GetSeedHash seedHashOf blockNum) :
    Verify seedHashOf blockSeedHash blockNum lightResultBytes difficulty =
      (false, 0) := by
  simp [Verify, hne]

theorem verify_short_circuits_witness :
    ([2] : List Nat) ≠ GetSeedHash (fun _ => [1]) 5 ∧
    Verify (fun _ => [1]) [2] 5 [0] 1 = (false, 0) :=
  ⟨by decide, verify_short_circuits (fun _ => [1]) [2] 5 [0] 1 (by decide)⟩

/-- C8: `updateCache` is idempotent when the epoch is unchanged: a call with
a cache already at `GetSeedBlockNum h` returns the state unchanged (same
object, no `ethash_mkcache` call), the second of two calls at the same
height is always a no-op, two calls from a stale cache perform exactly one
build, and after any call the cache epoch equals `GetSeedBlockNum h`. -/
theorem updateCache_idempotent (h : Nat) (st : CacheState) :
    updateCache h (updateCache h st) = updateCache h st ∧
    (st.seedBlockNum = GetSeedBlockNum h → updateCache h st = st) ∧
    (st.seedBlockNum ≠ GetSeedBlockNum h →
      (updateCache h (updateCache h st)).mkcacheCalls =
        st.mkcacheCalls + 1) ∧
    (updateCache h st).seedBlockNum = GetSeedBlockNum h := by
  by_cases heq : st.seedBlockNum = GetSeedBlockNum h
  · refine ⟨?_, fun _ => ?_, fun hne => absurd heq hne, ?_⟩ <;>
      simp [updateCache, heq]
  · refine ⟨?_, fun hcur => absurd hcur heq, fun _ => ?_, ?_⟩ <;>
      simp [updateCache, heq]

theorem updateCache_idempotent_witness :
    (⟨0, 0, 0⟩ : CacheState).seedBlockNum ≠ GetSeedBlockNum 30001 ∧
    (updateCache 30001 (updateCache 30001 ⟨0, 0, 0⟩)).mkcacheCalls =
      (⟨0, 0, 0⟩ : CacheState).mkcacheCalls + 1 :=
  ⟨by decide, (updateCache_idempotent 30001 ⟨0, 0, 0⟩).2.2.1 (by decide)⟩

/-- C9: when the stop signal is set at the loop's non-blocking poll, the
search iteration resets `pow.HashRate` to 0 and returns the cancelled triple
within that iteration, performing no `ethash_full` oracle call (the call
counter in the returned state is unchanged). -/
theorem searchStep_cancellation (oracle : Nat → List Nat × List Nat)
    (seedHash : List Nat) (difficulty : Nat) (newRate : Int)
    (st : SearchState) :
    searchStep oracle seedHash difficulty newRate true st =
      .ret 0 none none { st with hashRate := 0 } ∧
    ({ st with hashRate := 0 } : SearchState).fullHashCalls =
      st.fullHashCalls := by
  exact ⟨rfl, rfl⟩

/-- C10: the cancelled outcome is the concrete triple
`(0, nil, nil)`; every successful return carries non-nil mix digest and seed
hash slices; and nonce 0 is also a possible successful return value (e.g.
starting nonce 0 with an all-zero first digest at difficulty 1), so only the
nil slices distinguish cancellation from success. -/
theorem cancelled_outcome_encoding :
    (∀ (oracle : Nat → List Nat × List Nat) (seedHash : List Nat)
        (difficulty : Nat) (newRate : Int) (st : SearchState),
      searchStep oracle seedHash difficulty newRate true st =
        .ret 0 none none { st with hashRate := 0 }) ∧
    (∀ (oracle : Nat → List Nat × List Nat) (seedHash : List Nat)
        (difficulty : Nat) (newRate : Int) (st st2 : SearchState)
        (n : Nat) (mix sh : Option (List Nat)),
      searchStep oracle seedHash difficulty newRate false st =
        .ret n mix sh st2 → mix ≠ none ∧ sh ≠ none) ∧
    searchStep (fun _ => (List.replicate 32 0, List.replicate 32 1))
        (List.replicate 32 2) 1 0 false ⟨0, 0, 0⟩ =
      .ret 0 (some (List.replicate 32 1)) (some (List.replicate 32 2))
        ⟨0, 0, 1⟩ := by
  refine ⟨fun _ _ _ _ _ => rfl, ?_, by decide⟩
  intro oracle seedHash difficulty newRate st st2 n mix sh hret
  by_cases hacc : acceptsDigest (oracle st.nonce).1 difficulty = true
  · simp only [searchStep, if_false, Bool.false_eq_true, hacc, if_true] at hret
    cases hret
    exact ⟨by simp, by simp⟩
  · simp only [searchStep, if_false, Bool.false_eq_true, hacc] at hret
    cases hret

theorem cancelled_outcome_encoding_witness :
    searchStep (fun _ => (List.replicate 32 0, List.replicate 32 1))
        (List.replicate 32 2) 1 0 false ⟨0, 0, 0⟩ =
      .ret 0 (some (List.replicate 32 1)) (some (List.replicate 32 2))
        ⟨0, 0, 1⟩ ∧
    (some (List.replicate 32 1) ≠ (none : Option (List Nat)) ∧
      some (List.replicate 32 2) ≠ (none : Option (List Nat))) :=
  ⟨by decide,
    cancelled_outcome_encoding.2.1
      (fun _ => (List.replicate 32 0, List.replicate 32 1))
      (List.replicate 32 2) 1 0 ⟨0, 0, 0⟩ ⟨0, 0, 1⟩ 0
      (some (List.replicate 32 1)) (some (List.replicate 32 2))
      (by decide)⟩

end Ethash
